import Mathlib

/-!
# Video upload handler: embedding and properties

A shallow embedding of `handler_upload_video.go`.  The filesystem, the
metadata store and the object store are explicit state; everything the
handler obtains from outside the two source files (standard library,
external processes, the `auth` and `database` packages) is an outcome
supplied by an `Env` value.
-/

namespace Tubely

/-! ## Data model -/

/-- Identifier as produced by `uuid.Parse`. -/
abbrev UUID := Nat

/-- One octet. -/
abbrev Byte := Fin 256

/-- Filesystem location. -/
abbrev Path := String

/-- Modelled from the spec: `database.CreateVideoParams` is declared outside
the given sources; the spec gives every record an owner, kept here as
`UserID` next to the descriptive text. -/
structure CreateVideoParams where
  Title : String
  Description : String
  UserID : UUID
deriving DecidableEq, Repr

/-- Modelled from the spec: `database.Video` is declared outside the given
sources.  The fields are the four that the composite literal in
`handlerUploadVideo` (lines 121-126) names; a Go `*string` is an `Option`. -/
structure Video where
  ID : UUID
  ThumbnailURL : Option String
  CreateVideoParams : CreateVideoParams
  VideoURL : Option String
deriving DecidableEq, Repr

/-- The element type of `videoData.Streams` (lines 140-143). -/
structure Stream where
  Width : Int
  Height : Int
deriving DecidableEq, Repr

/-- The local type `videoData` of `getVideoAspectRatio` (lines 139-144). -/
structure videoData where
  Streams : List Stream
deriving DecidableEq, Repr

/-- Result of a Go function returning `(T, error)` that may also panic. -/
inductive GoResult (α : Type) where
  | ok (a : α)
  | err (msg : String)
  | panicked (msg : String)
deriving DecidableEq, Repr

/-- Outcome of running `ffmpeg`: whether the output path was created, and
whether the process exited with status zero. -/
structure CmdResult where
  wroteOutput : Bool
  exitOk : Bool
deriving DecidableEq, Repr

/-- The incoming request as far as the handler looks at it. -/
structure Request where
  videoIDString : String
  Header : List (String × String)
  body : List Byte
deriving DecidableEq, Repr

/-- The fields of `apiConfig` the handler reads besides its two clients. -/
structure apiConfig where
  jwtSecret : String
  s3Bucket : String
  s3CfDistribution : String
deriving DecidableEq, Repr

/-- Outcomes of everything the handler calls outside the two source files,
for one request. -/
structure Env where
  /-- The call `uuid.Parse`. -/
  uuidParse : String → Option UUID
  /-- The call `auth.GetBearerToken`. -/
  getBearerToken : List (String × String) → Option String
  /-- The call `auth.ValidateJWT token secret`. -/
  validateJWT : String → String → Option UUID
  /-- The call `r.FormFile name` behind `http.MaxBytesReader`: the part's
  `Content-Type` header and its bytes. -/
  formFile : Request → String → Option (String × List Byte)
  /-- The call `mime.ParseMediaType`, first result; `none` on error. -/
  parseMediaType : String → Option String
  /-- The call `os.CreateTemp "" "tubely-upload.mp4"`: the new file's name. -/
  createTemp : Option Path
  /-- Whether `io.Copy` into the staged file succeeds. -/
  copyOk : Bool
  /-- Running `ffprobe` on a path: captured standard output, `none` when
  `cmd.Run` fails. -/
  ffprobe : Path → Option String
  /-- The call `json.Unmarshal` into a `videoData`; `none` on error. -/
  unmarshal : String → Option videoData
  /-- Running `ffmpeg` from an input path to an output path. -/
  ffmpeg : Path → Path → CmdResult
  /-- Whether `os.Open` of an existing file succeeds. -/
  openOk : Path → Bool
  /-- The bytes `rand.Read` delivers. -/
  randRead : List Byte
  /-- Whether `PutObject` stores the object. -/
  putObjectOk : Bool
  /-- Whether `UpdateVideo` succeeds. -/
  updateVideoOk : Bool

/-! ## Media prober -/

/-- Source: `getVideoAspectRatio` (lines 138-169).  Go's `/` on `int`
truncates toward zero, which is `Int.tdiv`; `v.Streams[0]` on an empty
slice is a run-time panic. -/
def getVideoAspectRatio (env : Env) (filePath : Path) : GoResult String :=
  match env.ffprobe filePath with
  | none => .err "ffprobe"
  | some b =>
    match env.unmarshal b with
    | none => .err "unmarshal"
    | some v =>
      match v.Streams with
      | [] => .panicked "index out of range [0] with length 0"
      | s0 :: _ =>
        if s0.Width.tdiv 16 = s0.Height.tdiv 9 then .ok "landscape"
        else if s0.Width.tdiv 9 = s0.Height.tdiv 16 then .ok "portrait"
        else .ok "other"

/-! ## Key generator -/

/-- The alphabet of `base64.URLEncoding`. -/
def encodeURL : List Char :=
  "ABCDEFGHIJKLMNOPQRSTUVWXYZabcdefghijklmnopqrstuvwxyz0123456789-_".toList

/-- Alphabet lookup `enc.encode[i&0x3F]`. -/
def encChar (i : Nat) : Char := encodeURL.getD (i % 64) 'A'

/-- The method `EncodeToString` of `base64.RawURLEncoding` (no padding), on
the character list: full 3-byte groups give 4 characters, a remainder of
two bytes gives 3 and a remainder of one byte gives 2. -/
def encodeRaw : List Byte → List Char
  | a :: b :: c :: rest =>
    let val := a.val * 65536 + b.val * 256 + c.val
    encChar (val / 262144) :: encChar (val / 4096) :: encChar (val / 64) :: encChar val
      :: encodeRaw rest
  | [a, b] =>
    let val := a.val * 65536 + b.val * 256
    [encChar (val / 262144), encChar (val / 4096), encChar (val / 64)]
  | [a] =>
    let val := a.val * 65536
    [encChar (val / 262144), encChar (val / 4096)]
  | [] => []

/-- The call `base64.RawURLEncoding.EncodeToString`. -/
def EncodeToString (src : List Byte) : String := String.mk (encodeRaw src)

/-- Lines 106-109 of `handlerUploadVideo`: the buffer `make([]byte, 32)`
after `rand.Read` (whose results are discarded) has written into it. -/
def imageFileNameRaw (env : Env) : List Byte :=
  (env.randRead ++ List.replicate 32 0).take 32

/-- Lines 108-109 of `handlerUploadVideo`: the storage key
`fmt.Sprintf("%s/%s.mp4", pfx, imageFileName)` with `imageFileName` the
encoding of the random buffer. -/
def imageFile (pfx : String) (raw : List Byte) : String :=
  pfx ++ "/" ++ EncodeToString raw ++ ".mp4"

/-! ## State and collaborators -/

/-- Everything that outlives the request: the files on disk, the metadata
store and the objects of the bucket (bucket name and key). -/
structure World where
  fs : List Path
  db : List Video
  s3 : List (String × String)
deriving DecidableEq, Repr

/-- Calls the handler makes on its collaborators, in program order. -/
inductive Call where
  | CreateTemp (name : Path)
  | GetVideo (id : UUID)
  | PutObject (bucket key contentType : String) (body : Path)
  | UpdateVideo (v : Video)
deriving DecidableEq, Repr

/-- What the client receives: `respondWithJSON`, `respondWithError`, or
nothing at all when the handler goroutine panicked. -/
inductive Response where
  | json (code : Nat) (payload : Video)
  | error (code : Nat) (msg : String)
  | aborted
deriving DecidableEq, Repr

/-- Result of one handler run. -/
structure Outcome where
  resp : Response
  world : World
  calls : List Call
deriving DecidableEq, Repr

/-- The call `os.Remove`: the path no longer exists afterwards. -/
def osRemove (name : Path) (w : World) : World :=
  { w with fs := w.fs.filter (fun p => p ≠ name) }

/-- The call `os.Open`: fails on a missing file, and otherwise as the
environment decides. -/
def osOpen (env : Env) (name : Path) (w : World) : Bool :=
  decide (name ∈ w.fs) && env.openOk name

/-- Modelled from the spec: `GetVideo(videoID) -> VideoRecord | NotFound`
of the metadata store, whose records are identified by their ID. -/
def GetVideo (db : List Video) (id : UUID) : Option Video :=
  db.find? (fun v => v.ID = id)

/-- Modelled from the spec: `UpdateVideo(VideoRecord) -> ok | error` of the
metadata store: on success the record with that ID is replaced. -/
def UpdateVideo (ok : Bool) (db : List Video) (v : Video) : Option (List Video) :=
  if ok then some (db.map (fun u => if u.ID = v.ID then v else u)) else none

/-- The call `cfg.s3Client.PutObject`: the object is stored on success. -/
def PutObject (ok : Bool) (bucket key : String) (w : World) : World :=
  if ok then { w with s3 := (bucket, key) :: w.s3 } else w

/-! ## Fast-start normalizer -/

/-- Source: `processVideoForFastStart` (lines 171-180).  The output file
exists afterwards whenever `ffmpeg` created it, whatever its exit status. -/
def processVideoForFastStart (env : Env) (filePath : Path) (w : World) :
    Option Path × World :=
  let outputPath := filePath ++ ".processing"
  let res := env.ffmpeg filePath outputPath
  let w1 := if res.wroteOutput then { w with fs := outputPath :: w.fs } else w
  if res.exitOk then (some outputPath, w1) else (none, w1)

/-! ## Ingestion orchestrator -/

/-- Source: `handlerUploadVideo` (lines 22-136).  Deferred calls run in
reverse order of registration on every exit after their `defer` statement,
a panic included. -/
def handlerUploadVideo (cfg : apiConfig) (env : Env) (r : Request) (w : World) : Outcome :=
  match env.uuidParse r.videoIDString with
  | none => ⟨.error 400 "Invalid ID", w, []⟩
  | some videoID =>
  match env.getBearerToken r.Header with
  | none => ⟨.error 401 "Couldn't find JWT", w, []⟩
  | some token =>
  match env.validateJWT token cfg.jwtSecret with
  | none => ⟨.error 401 "Couldn't validate JWT", w, []⟩
  | some _userID =>
  match env.formFile r "video" with
  | none => ⟨.error 400 "Unable to parse form file", w, []⟩
  | some (contentType, _file) =>
  match env.parseMediaType contentType with
  | none => ⟨.error 400 "Unable to determine file type", w, []⟩
  | some mediaType =>
  if mediaType ≠ "video/mp4" then ⟨.error 400 "Bad file type", w, []⟩ else
  match env.createTemp with
  | none => ⟨.error 500 "File create error", w, []⟩
  | some newFile =>
  let w1 : World := { w with fs := newFile :: w.fs }
  -- defer os.Remove(newFile.Name())
  if env.copyOk = false then
    ⟨.error 500 "File save error", osRemove newFile w1, [.CreateTemp newFile]⟩ else
  match getVideoAspectRatio env newFile with
  | .panicked _ => ⟨.aborted, osRemove newFile w1, [.CreateTemp newFile]⟩
  | .err _ => ⟨.error 500 "File information error", osRemove newFile w1, [.CreateTemp newFile]⟩
  | .ok pfx =>
  let w2 := (processVideoForFastStart env newFile w1).2
  match (processVideoForFastStart env newFile w1).1 with
  | none => ⟨.error 500 "File convert error", osRemove newFile w2, [.CreateTemp newFile]⟩
  | some fastFileName =>
  if osOpen env fastFileName w2 = false then
    ⟨.error 500 "File convert read error", osRemove newFile w2, [.CreateTemp newFile]⟩ else
  -- defer os.Remove(fastFileName)
  match GetVideo w2.db videoID with
  | none =>
    ⟨.error 401 "Unauthorized", osRemove newFile (osRemove fastFileName w2),
      [.CreateTemp newFile, .GetVideo videoID]⟩
  | some videoMetadata =>
  let key := imageFile pfx (imageFileNameRaw env)
  let w3 := PutObject env.putObjectOk cfg.s3Bucket key w2
  let videoURL := cfg.s3CfDistribution ++ key
  let newVideo : Video :=
    { ID := videoID
      ThumbnailURL := videoMetadata.ThumbnailURL
      CreateVideoParams := videoMetadata.CreateVideoParams
      VideoURL := some videoURL }
  let calls : List Call :=
    [.CreateTemp newFile, .GetVideo videoID,
     .PutObject cfg.s3Bucket key mediaType fastFileName, .UpdateVideo newVideo]
  match UpdateVideo env.updateVideoOk w3.db newVideo with
  | none =>
    ⟨.error 500 "Database error", osRemove newFile (osRemove fastFileName w3), calls⟩
  | some db1 =>
    ⟨.json 200 newVideo, osRemove newFile (osRemove fastFileName { w3 with db := db1 }), calls⟩

/-! ## Canned collaborators for concrete runs -/

/-- A record of the store, owned by user 7. -/
def sampleVideo : Video :=
  { ID := 1
    ThumbnailURL := some "http://localhost:8091/assets/t.png"
    CreateVideoParams := { Title := "clip", Description := "demo", UserID := 7 }
    VideoURL := none }

/-- A world with one stored record and an empty staging directory. -/
def sampleWorld : World := { fs := [], db := [sampleVideo], s3 := [] }

/-- Configuration of the concrete runs. -/
def sampleCfg : apiConfig :=
  { jwtSecret := "secret", s3Bucket := "tubely", s3CfDistribution := "https://cdn.example/" }

/-- A request for record 1 carrying one `video` part. -/
def sampleRequest : Request :=
  { videoIDString := "1", Header := [("Authorization", "Bearer tok")], body := [0, 0, 0, 32] }

/-- An environment in which every step succeeds for `sampleRequest`, the caller
being authenticated as user 7 and the probe reporting 1280x720. -/
def sampleEnv : Env :=
  { uuidParse := fun s => if s = "1" then some 1 else none
    getBearerToken := fun h => (h.lookup "Authorization").map (fun v => v.drop 7)
    validateJWT := fun t s => if t = "tok" ∧ s = "secret" then some 7 else none
    formFile := fun r n => if n = "video" then some ("video/mp4", r.body) else none
    parseMediaType := fun s => if s = "" then none else some s
    createTemp := some "/tmp/tubely-upload.mp4123"
    copyOk := true
    ffprobe := fun _ => some "1280x720"
    unmarshal := fun s => if s = "1280x720" then some ⟨[⟨1280, 720⟩]⟩ else none
    ffmpeg := fun _ _ => ⟨true, true⟩
    openOk := fun _ => true
    randRead := List.replicate 32 255
    putObjectOk := true
    updateVideoOk := true }

/-- Characters of the URL-safe alphabet of RFC 4648. -/
def isURLSafe (c : Char) : Bool :=
  c.isUpper || c.isLower || c.isDigit || c == '-' || c == '_'

/-- The record the handler hands to `UpdateVideo` (lines 121-126). -/
def newVideoOf (cfg : apiConfig) (videoID : UUID) (fetched : Video) (key : String) : Video :=
  { ID := videoID
    ThumbnailURL := fetched.ThumbnailURL
    CreateVideoParams := fetched.CreateVideoParams
    VideoURL := some (cfg.s3CfDistribution ++ key) }

/-- The normalizer creates its output file and then exits non-zero. -/
def envNormalizeFails : Env := { sampleEnv with ffmpeg := fun _ _ => ⟨true, false⟩ }

/-- The normalizer succeeds, then `os.Open` of its output fails. -/
def envOpenFails : Env := { sampleEnv with openOk := fun _ => false }

/-- The object store rejects the upload. -/
def envPutFails : Env := { sampleEnv with putObjectOk := false }

/-- The token validates to user 8, who does not own `sampleVideo`. -/
def envOtherUser : Env := { sampleEnv with validateJWT := fun _ _ => some 8 }

/-- The `video` part is declared as `video/avi`. -/
def envAvi : Env :=
  { sampleEnv with formFile := fun r n => if n = "video" then some ("video/avi", r.body) else none }

/-- The probe output parses, with an empty stream list. -/
def envNoStreams : Env := { sampleEnv with unmarshal := fun _ => some ⟨[]⟩ }

/-- The probe reports a first stream of the given size. -/
def envGeometry (width height : Int) : Env :=
  { sampleEnv with unmarshal := fun _ => some ⟨[⟨width, height⟩]⟩ }

/-- A world whose store holds no record. -/
def emptyWorld : World := { fs := [], db := [], s3 := [] }

/-- The staged file of the concrete runs. -/
def stagedPath : Path := "/tmp/tubely-upload.mp4123"

/-! ## Lemmas: key generator -/

theorem encodeURL_safe : ∀ c ∈ encodeURL, isURLSafe c = true := by decide

theorem encChar_fin_mem : ∀ i : Fin 64, encChar i.val ∈ encodeURL := by decide

theorem encChar_fin_inj : ∀ i j : Fin 64, encChar i.val = encChar j.val → i = j := by decide

theorem encChar_mod (n : Nat) : encChar (n % 64) = encChar n := by
  simp [encChar, Nat.mod_mod]

theorem encChar_mem (n : Nat) : encChar n ∈ encodeURL := by
  rw [← encChar_mod]
  exact encChar_fin_mem ⟨n % 64, Nat.mod_lt _ (by decide)⟩

theorem encChar_inj {m n : Nat} (h : encChar m = encChar n) : m % 64 = n % 64 := by
  rw [← encChar_mod m, ← encChar_mod n] at h
  have := encChar_fin_inj ⟨m % 64, Nat.mod_lt _ (by decide)⟩ ⟨n % 64, Nat.mod_lt _ (by decide)⟩ h
  exact congrArg Fin.val this

theorem encodeRaw_length (l : List Byte) :
    (encodeRaw l).length = 4 * (l.length / 3) + (if l.length % 3 = 0 then 0 else l.length % 3 + 1) := by
  induction l using encodeRaw.induct with
  | case1 a b c rest ih =>
    simp only [encodeRaw, List.length_cons, ih]
    split <;> split <;> omega
  | case2 a b => simp [encodeRaw]
  | case3 a => simp [encodeRaw]
  | case4 => simp [encodeRaw]

theorem encodeRaw_mem (l : List Byte) : ∀ c ∈ encodeRaw l, c ∈ encodeURL := by
  induction l using encodeRaw.induct with
  | case1 a b c rest ih =>
    intro x hx
    simp only [encodeRaw, List.mem_cons] at hx
    rcases hx with h | h | h | h | h
    · exact h ▸ encChar_mem _
    · exact h ▸ encChar_mem _
    · exact h ▸ encChar_mem _
    · exact h ▸ encChar_mem _
    · exact ih x h
  | case2 a b =>
    intro x hx
    simp only [encodeRaw, List.mem_cons, List.mem_singleton, List.mem_nil_iff, or_false] at hx
    rcases hx with h | h | h
    · exact h ▸ encChar_mem _
    · exact h ▸ encChar_mem _
    · exact h ▸ encChar_mem _
  | case3 a =>
    intro x hx
    simp only [encodeRaw, List.mem_cons, List.mem_singleton, List.mem_nil_iff, or_false] at hx
    rcases hx with h | h
    · exact h ▸ encChar_mem _
    · exact h ▸ encChar_mem _
  | case4 => simp [encodeRaw]

theorem encodeRaw_injective : ∀ l₁ l₂ : List Byte, encodeRaw l₁ = encodeRaw l₂ → l₁ = l₂ := by
  intro l₁
  induction l₁ using encodeRaw.induct with
  | case1 a b c rest ih =>
    intro l₂ h
    match l₂, h with
    | x :: y :: z :: rest2, h =>
      simp only [encodeRaw, List.cons.injEq] at h
      obtain ⟨h0, h1, h2, h3, h4⟩ := h
      have e0 := encChar_inj h0
      have e1 := encChar_inj h1
      have e2 := encChar_inj h2
      have e3 := encChar_inj h3
      have hr := ih rest2 h4
      have ha := a.isLt
      have hb := b.isLt
      have hc := c.isLt
      have hx := x.isLt
      have hy := y.isLt
      have hz := z.isLt
      have hax : a = x := Fin.ext (by omega)
      have hby : b = y := Fin.ext (by omega)
      have hcz : c = z := Fin.ext (by omega)
      rw [hax, hby, hcz, hr]
    | [x, y], h => simp [encodeRaw] at h
    | [x], h => simp [encodeRaw] at h
    | [], h => simp [encodeRaw] at h
  | case2 a b =>
    intro l₂ h
    match l₂, h with
    | x :: y :: z :: rest2, h => simp [encodeRaw] at h
    | [x, y], h =>
      simp only [encodeRaw, List.cons.injEq, and_true] at h
      obtain ⟨h0, h1, h2⟩ := h
      have e0 := encChar_inj h0
      have e1 := encChar_inj h1
      have e2 := encChar_inj h2
      have ha := a.isLt
      have hb := b.isLt
      have hx := x.isLt
      have hy := y.isLt
      have hax : a = x := Fin.ext (by omega)
      have hby : b = y := Fin.ext (by omega)
      rw [hax, hby]
    | [x], h => simp [encodeRaw] at h
    | [], h => simp [encodeRaw] at h
  | case3 a =>
    intro l₂ h
    match l₂, h with
    | x :: y :: z :: rest2, h => simp [encodeRaw] at h
    | [x, y], h => simp [encodeRaw] at h
    | [x], h =>
      simp only [encodeRaw, List.cons.injEq, and_true] at h
      obtain ⟨h0, h1⟩ := h
      have e0 := encChar_inj h0
      have e1 := encChar_inj h1
      have ha := a.isLt
      have hx := x.isLt
      have hax : a = x := Fin.ext (by omega)
      rw [hax]
    | [], h => simp [encodeRaw] at h
  | case4 =>
    intro l₂ h
    match l₂, h with
    | x :: y :: z :: rest2, h => simp [encodeRaw] at h
    | [x, y], h => simp [encodeRaw] at h
    | [x], h => simp [encodeRaw] at h
    | [], _ => rfl

theorem imageFileNameRaw_length (env : Env) : (imageFileNameRaw env).length = 32 := by
  simp [imageFileNameRaw]

theorem imageFileNameRaw_eq (env : Env) (h : env.randRead.length = 32) :
    imageFileNameRaw env = env.randRead := by
  unfold imageFileNameRaw
  rw [List.take_append_of_le_length (by omega), List.take_of_length_le (by omega)]

theorem EncodeToString_length (b : List Byte) (h : b.length = 32) :
    (EncodeToString b).length = 43 := by
  simp [EncodeToString, encodeRaw_length, h]

theorem EncodeToString_safe (b : List Byte) :
    ∀ c ∈ (EncodeToString b).toList, isURLSafe c = true := by
  intro c hc
  exact encodeURL_safe c (encodeRaw_mem b c hc)

theorem imageFile_injective (pfx : String) (b₁ b₂ : List Byte)
    (h : imageFile pfx b₁ = imageFile pfx b₂) : b₁ = b₂ := by
  unfold imageFile EncodeToString at h
  have hd := congrArg String.data h
  simp only [String.data_append, List.append_assoc] at hd
  have h1 := List.append_cancel_left hd
  have h2 := List.append_cancel_left h1
  have h3 := List.append_cancel_right h2
  exact encodeRaw_injective _ _ h3

theorem imageFile_length (pfx : String) (b : List Byte) (h : b.length = 32) :
    (imageFile pfx b).length = pfx.length + 48 := by
  unfold imageFile
  simp only [String.length_append, EncodeToString_length b h]
  have h1 : "/".length = 1 := by decide
  have h2 : ".mp4".length = 4 := by decide
  omega

/-! ## Lemmas: media prober -/

theorem getVideoAspectRatio_class (env : Env) (p pfx : String)
    (h : getVideoAspectRatio env p = .ok pfx) :
    pfx = "landscape" ∨ pfx = "portrait" ∨ pfx = "other" := by
  unfold getVideoAspectRatio at h
  repeat' split at h
  all_goals simp at h
  all_goals simp [← h]

theorem getVideoAspectRatio_first (env : Env) (p out : String) (v : videoData)
    (s0 : Stream) (rest : List Stream)
    (hp : env.ffprobe p = some out) (hu : env.unmarshal out = some v)
    (hs : v.Streams = s0 :: rest) :
    getVideoAspectRatio env p =
      (if s0.Width.tdiv 16 = s0.Height.tdiv 9 then .ok "landscape"
       else if s0.Width.tdiv 9 = s0.Height.tdiv 16 then .ok "portrait"
       else .ok "other") := by
  simp only [getVideoAspectRatio, hp, hu, hs]

/-! ## Lemmas: normalizer and orchestrator -/

theorem processVideoForFastStart_db (env : Env) (p : Path) (w : World) :
    (processVideoForFastStart env p w).2.db = w.db := by
  unfold processVideoForFastStart
  dsimp only
  split <;> split <;> rfl

theorem processVideoForFastStart_name (env : Env) (p f : Path) (w : World)
    (h : (processVideoForFastStart env p w).1 = some f) : f = p ++ ".processing" := by
  unfold processVideoForFastStart at h
  dsimp only at h
  split at h
  · exact (Option.some.inj h).symm
  · exact absurd h (by simp)

/-- Every run either stops before the publish step, having made no
`PutObject` or `UpdateVideo` call and sent no JSON payload, or has passed
every earlier step and made exactly the four calls of the full pipeline. -/
theorem handlerUploadVideo_cases (cfg : apiConfig) (env : Env) (r : Request) (w : World) :
    ((∀ c ∈ (handlerUploadVideo cfg env r w).calls,
        (∃ n, c = .CreateTemp n) ∨ ∃ i, c = .GetVideo i) ∧
      (∀ code v, (handlerUploadVideo cfg env r w).resp ≠ .json code v) ∧
      (handlerUploadVideo cfg env r w).world.db = w.db) ∨
    ∃ videoID token uid contentType file newFile pfx fetched,
      env.uuidParse r.videoIDString = some videoID ∧
      env.getBearerToken r.Header = some token ∧
      env.validateJWT token cfg.jwtSecret = some uid ∧
      env.formFile r "video" = some (contentType, file) ∧
      env.parseMediaType contentType = some "video/mp4" ∧
      env.createTemp = some newFile ∧
      env.copyOk = true ∧
      getVideoAspectRatio env newFile = .ok pfx ∧
      GetVideo w.db videoID = some fetched ∧
      (handlerUploadVideo cfg env r w).calls =
        [.CreateTemp newFile, .GetVideo videoID,
         .PutObject cfg.s3Bucket (imageFile pfx (imageFileNameRaw env)) "video/mp4"
           (newFile ++ ".processing"),
         .UpdateVideo (newVideoOf cfg videoID fetched (imageFile pfx (imageFileNameRaw env)))] ∧
      ((env.updateVideoOk = true ∧ (handlerUploadVideo cfg env r w).resp =
          .json 200 (newVideoOf cfg videoID fetched (imageFile pfx (imageFileNameRaw env)))) ∨
       (env.updateVideoOk = false ∧
          (handlerUploadVideo cfg env r w).resp = .error 500 "Database error")) := by
  rcases h1 : env.uuidParse r.videoIDString with _ | videoID
  · left; simp [handlerUploadVideo, h1]
  rcases h2 : env.getBearerToken r.Header with _ | token
  · left; simp [handlerUploadVideo, h1, h2]
  rcases h3 : env.validateJWT token cfg.jwtSecret with _ | uid
  · left; simp [handlerUploadVideo, h1, h2, h3]
  rcases h4 : env.formFile r "video" with _ | ⟨contentType, file⟩
  · left; simp [handlerUploadVideo, h1, h2, h3, h4]
  rcases h5 : env.parseMediaType contentType with _ | mediaType
  · left; simp [handlerUploadVideo, h1, h2, h3, h4, h5]
  by_cases hm : mediaType = "video/mp4"
  swap
  · left; simp [handlerUploadVideo, h1, h2, h3, h4, h5, hm]
  subst hm
  rcases h6 : env.createTemp with _ | newFile
  · left; simp [handlerUploadVideo, h1, h2, h3, h4, h5, h6]
  rcases hc : env.copyOk with _ | _
  · left; simp [handlerUploadVideo, h1, h2, h3, h4, h5, h6, hc, osRemove]
  rcases h7 : getVideoAspectRatio env newFile with pfx | e | e
  rotate_left
  · left; simp [handlerUploadVideo, h1, h2, h3, h4, h5, h6, hc, h7, osRemove]
  · left; simp [handlerUploadVideo, h1, h2, h3, h4, h5, h6, hc, h7, osRemove]
  rcases h8 : (processVideoForFastStart env newFile { w with fs := newFile :: w.fs }).1
    with _ | fastFileName
  · left
    simp [handlerUploadVideo, h1, h2, h3, h4, h5, h6, hc, h7, h8, osRemove,
      processVideoForFastStart_db]
  have hf := processVideoForFastStart_name _ _ _ _ h8
  subst hf
  rcases ho : osOpen env (newFile ++ ".processing")
    (processVideoForFastStart env newFile { w with fs := newFile :: w.fs }).2 with _ | _
  · left
    simp [handlerUploadVideo, h1, h2, h3, h4, h5, h6, hc, h7, h8, ho, osRemove,
      processVideoForFastStart_db]
  rcases h9 : GetVideo w.db videoID with _ | fetched
  · left
    simp [handlerUploadVideo, h1, h2, h3, h4, h5, h6, hc, h7, h8, ho, h9, osRemove,
      processVideoForFastStart_db]
  right
  refine ⟨videoID, token, uid, contentType, file, newFile, pfx, fetched,
    ?_, ?_, ?_, ?_, ?_, ?_, ?_, ?_, ?_, ?_, ?_⟩
  any_goals first | rfl | assumption
  · rcases hu : env.updateVideoOk with _ | _ <;>
      simp [handlerUploadVideo, h1, h2, h3, h4, h5, h6, hc, h7, h8, ho, h9, hu,
        processVideoForFastStart_db, UpdateVideo, newVideoOf, PutObject]
  · rcases hu : env.updateVideoOk with _ | _ <;>
      simp [handlerUploadVideo, h1, h2, h3, h4, h5, h6, hc, h7, h8, ho, h9, hu,
        processVideoForFastStart_db, UpdateVideo, newVideoOf, PutObject]

/-- The handler reads the validated user only to log it: replacing it by any
other user leaves the run unchanged. -/
theorem handlerUploadVideo_ignores_user (cfg : apiConfig) (env : Env) (r : Request) (w : World)
    (uid2 : UUID) :
    handlerUploadVideo cfg
        { env with validateJWT := fun t s => (env.validateJWT t s).map (fun _ => uid2) } r w
      = handlerUploadVideo cfg env r w := by
  rcases h1 : env.uuidParse r.videoIDString with _ | videoID
  · simp [handlerUploadVideo, h1]
  rcases h2 : env.getBearerToken r.Header with _ | token
  · simp [handlerUploadVideo, h1, h2]
  rcases h3 : env.validateJWT token cfg.jwtSecret with _ | uid
  · simp [handlerUploadVideo, h1, h2, h3]
  simp only [handlerUploadVideo, h1, h2, h3, Option.map_some']
  rfl

/-- Every `PutObject` call of the handler carries the key built from the
prefix returned for the staged file and the random buffer. -/
theorem handlerUploadVideo_put_key (cfg : apiConfig) (env : Env) (r : Request) (w : World)
    (bucket key contentType body : String)
    (hcall : Call.PutObject bucket key contentType body ∈ (handlerUploadVideo cfg env r w).calls) :
    ∃ newFile p,
      env.createTemp = some newFile ∧
      getVideoAspectRatio env newFile = .ok p ∧
      key = imageFile p (imageFileNameRaw env) := by
  rcases handlerUploadVideo_cases cfg env r w with ⟨hn, _, _⟩ |
    ⟨videoID, token, uid, ct, file, newFile, pfx, fetched,
      _, _, _, _, _, h6, _, h7, _, hcalls, _⟩
  · rcases hn _ hcall with ⟨n, hc⟩ | ⟨i, hc⟩ <;> exact absurd hc (by simp)
  · rw [hcalls] at hcall
    simp only [List.mem_cons, Call.PutObject.injEq, List.mem_singleton, List.mem_nil_iff,
      or_false, reduceCtorEq, false_or] at hcall
    exact ⟨newFile, pfx, h6, h7, hcall.2.1⟩

/-- Cleanup that does hold: a staged file the handler created is gone when it
returns, and so is the normalized file on every path that got as far as the
record lookup. -/
theorem handlerUploadVideo_cleanup (cfg : apiConfig) (env : Env) (r : Request) (w : World) :
    (∀ n, Call.CreateTemp n ∈ (handlerUploadVideo cfg env r w).calls →
      n ∉ (handlerUploadVideo cfg env r w).world.fs) ∧
    (∀ n i, Call.CreateTemp n ∈ (handlerUploadVideo cfg env r w).calls →
      Call.GetVideo i ∈ (handlerUploadVideo cfg env r w).calls →
      n ++ ".processing" ∉ (handlerUploadVideo cfg env r w).world.fs) := by
  rcases h1 : env.uuidParse r.videoIDString with _ | videoID
  · simp [handlerUploadVideo, h1]
  rcases h2 : env.getBearerToken r.Header with _ | token
  · simp [handlerUploadVideo, h1, h2]
  rcases h3 : env.validateJWT token cfg.jwtSecret with _ | uid
  · simp [handlerUploadVideo, h1, h2, h3]
  rcases h4 : env.formFile r "video" with _ | ⟨contentType, file⟩
  · simp [handlerUploadVideo, h1, h2, h3, h4]
  rcases h5 : env.parseMediaType contentType with _ | mediaType
  · simp [handlerUploadVideo, h1, h2, h3, h4, h5]
  by_cases hm : mediaType = "video/mp4"
  swap
  · simp [handlerUploadVideo, h1, h2, h3, h4, h5, hm]
  subst hm
  rcases h6 : env.createTemp with _ | newFile
  · simp [handlerUploadVideo, h1, h2, h3, h4, h5, h6]
  rcases hc : env.copyOk with _ | _
  · simp [handlerUploadVideo, h1, h2, h3, h4, h5, h6, hc, osRemove]
  rcases h7 : getVideoAspectRatio env newFile with pfx | e | e
  rotate_left
  · simp [handlerUploadVideo, h1, h2, h3, h4, h5, h6, hc, h7, osRemove]
  · simp [handlerUploadVideo, h1, h2, h3, h4, h5, h6, hc, h7, osRemove]
  rcases h8 : (processVideoForFastStart env newFile { w with fs := newFile :: w.fs }).1
    with _ | fastFileName
  · simp [handlerUploadVideo, h1, h2, h3, h4, h5, h6, hc, h7, h8, osRemove]
  have hf := processVideoForFastStart_name _ _ _ _ h8
  subst hf
  rcases ho : osOpen env (newFile ++ ".processing")
    (processVideoForFastStart env newFile { w with fs := newFile :: w.fs }).2 with _ | _
  · simp [handlerUploadVideo, h1, h2, h3, h4, h5, h6, hc, h7, h8, ho, osRemove]
  rcases h9 : GetVideo w.db videoID with _ | fetched
  · simp [handlerUploadVideo, h1, h2, h3, h4, h5, h6, hc, h7, h8, ho, h9, osRemove,
      processVideoForFastStart_db]
  rcases hu : env.updateVideoOk with _ | _ <;>
    simp [handlerUploadVideo, h1, h2, h3, h4, h5, h6, hc, h7, h8, ho, h9, hu, osRemove,
      processVideoForFastStart_db, UpdateVideo, PutObject]

/-! ## Claims -/

/-- C1 (fails on the code): when the normalizer exits non-zero after creating
its output, or when opening that output fails, the handler answers 500 and
removes the staged file, and the `.processing` file is still on disk. -/
theorem C1_processing_file_left_behind :
    (handlerUploadVideo sampleCfg envNormalizeFails sampleRequest sampleWorld).resp
        = .error 500 "File convert error" ∧
      stagedPath ∉
        (handlerUploadVideo sampleCfg envNormalizeFails sampleRequest sampleWorld).world.fs ∧
      stagedPath ++ ".processing" ∈
        (handlerUploadVideo sampleCfg envNormalizeFails sampleRequest sampleWorld).world.fs ∧
      (handlerUploadVideo sampleCfg envOpenFails sampleRequest sampleWorld).resp
        = .error 500 "File convert read error" ∧
      stagedPath ++ ".processing" ∈
        (handlerUploadVideo sampleCfg envOpenFails sampleRequest sampleWorld).world.fs := by
  decide

/-- C2 (fails on the code): with a failing `PutObject` the handler still calls
`UpdateVideo`, rewrites the stored record and answers 200, while the bucket
holds no object. -/
theorem C2_put_failure_still_200 :
    envPutFails.putObjectOk = false ∧
      (handlerUploadVideo sampleCfg envPutFails sampleRequest sampleWorld).resp =
        .json 200 (newVideoOf sampleCfg 1 sampleVideo
          (imageFile "landscape" (imageFileNameRaw envPutFails))) ∧
      Call.UpdateVideo (newVideoOf sampleCfg 1 sampleVideo
          (imageFile "landscape" (imageFileNameRaw envPutFails))) ∈
        (handlerUploadVideo sampleCfg envPutFails sampleRequest sampleWorld).calls ∧
      (handlerUploadVideo sampleCfg envPutFails sampleRequest sampleWorld).world.db
        ≠ sampleWorld.db ∧
      (handlerUploadVideo sampleCfg envPutFails sampleRequest sampleWorld).world.s3 = [] := by
  decide

/-- C3 (as stated, false): a caller authenticated as user 8 uploads to a record
owned by user 7; the handler answers 200 and makes both the `PutObject` and
the `UpdateVideo` call. -/
theorem C3_non_owner_is_served :
    envOtherUser.validateJWT "tok" sampleCfg.jwtSecret = some 8 ∧
      GetVideo sampleWorld.db 1 = some sampleVideo ∧
      sampleVideo.CreateVideoParams.UserID = 7 ∧
      (handlerUploadVideo sampleCfg envOtherUser sampleRequest sampleWorld).resp =
        .json 200 (newVideoOf sampleCfg 1 sampleVideo
          (imageFile "landscape" (imageFileNameRaw envOtherUser))) ∧
      (handlerUploadVideo sampleCfg envOtherUser sampleRequest sampleWorld).calls =
        [.CreateTemp stagedPath, .GetVideo 1,
         .PutObject "tubely" (imageFile "landscape" (imageFileNameRaw envOtherUser))
           "video/mp4" (stagedPath ++ ".processing"),
         .UpdateVideo (newVideoOf sampleCfg 1 sampleVideo
           (imageFile "landscape" (imageFileNameRaw envOtherUser)))] := by
  decide

/-- C3 (amended): when every step before the lookup succeeds and the store holds
no record for the video ID, the handler answers 401, makes no `PutObject` and
no `UpdateVideo` call and leaves store and bucket as they were; the user the
token validates to plays no part in the outcome. -/
theorem C3_absent_record_unauthorized (cfg : apiConfig) (env : Env) (r : Request) (w : World)
    (videoID uid : UUID) (token contentType newFile pfx : String) (file : List Byte)
    (h1 : env.uuidParse r.videoIDString = some videoID)
    (h2 : env.getBearerToken r.Header = some token)
    (h3 : env.validateJWT token cfg.jwtSecret = some uid)
    (h4 : env.formFile r "video" = some (contentType, file))
    (h5 : env.parseMediaType contentType = some "video/mp4")
    (h6 : env.createTemp = some newFile)
    (hc : env.copyOk = true)
    (h7 : getVideoAspectRatio env newFile = .ok pfx)
    (h8 : (processVideoForFastStart env newFile { w with fs := newFile :: w.fs }).1
      = some (newFile ++ ".processing"))
    (ho : osOpen env (newFile ++ ".processing")
      (processVideoForFastStart env newFile { w with fs := newFile :: w.fs }).2 = true)
    (h9 : GetVideo w.db videoID = none) :
    (handlerUploadVideo cfg env r w).resp = .error 401 "Unauthorized" ∧
      (handlerUploadVideo cfg env r w).calls = [.CreateTemp newFile, .GetVideo videoID] ∧
      (∀ b k c f, Call.PutObject b k c f ∉ (handlerUploadVideo cfg env r w).calls) ∧
      (∀ v, Call.UpdateVideo v ∉ (handlerUploadVideo cfg env r w).calls) ∧
      (handlerUploadVideo cfg env r w).world.db = w.db ∧
      (handlerUploadVideo cfg env r w).world.s3 = w.s3 ∧
      (∀ uid2 : UUID, handlerUploadVideo cfg
          { env with validateJWT := fun t s => (env.validateJWT t s).map (fun _ => uid2) } r w
        = handlerUploadVideo cfg env r w) := by
  have hs3 : (processVideoForFastStart env newFile { w with fs := newFile :: w.fs }).2.s3
      = w.s3 := by
    unfold processVideoForFastStart
    dsimp only
    split <;> split <;> rfl
  refine ⟨?_, ?_, ?_, ?_, ?_, ?_, ?_⟩
  · simp [handlerUploadVideo, h1, h2, h3, h4, h5, h6, hc, h7, h8, ho, h9,
      processVideoForFastStart_db]
  · simp [handlerUploadVideo, h1, h2, h3, h4, h5, h6, hc, h7, h8, ho, h9,
      processVideoForFastStart_db]
  · simp [handlerUploadVideo, h1, h2, h3, h4, h5, h6, hc, h7, h8, ho, h9,
      processVideoForFastStart_db]
  · simp [handlerUploadVideo, h1, h2, h3, h4, h5, h6, hc, h7, h8, ho, h9,
      processVideoForFastStart_db]
  · simp [handlerUploadVideo, h1, h2, h3, h4, h5, h6, hc, h7, h8, ho, h9,
      processVideoForFastStart_db, osRemove]
  · simp [handlerUploadVideo, h1, h2, h3, h4, h5, h6, hc, h7, h8, ho, h9,
      processVideoForFastStart_db, osRemove, hs3]
  · exact fun uid2 => handlerUploadVideo_ignores_user cfg env r w uid2

/-- C3 witness: the full pipeline up to the lookup, on a store without the
record. -/
theorem C3_absent_record_unauthorized_witness :
    (handlerUploadVideo sampleCfg sampleEnv sampleRequest emptyWorld).resp
        = .error 401 "Unauthorized" ∧
      (handlerUploadVideo sampleCfg sampleEnv sampleRequest emptyWorld).calls
        = [.CreateTemp stagedPath, .GetVideo 1] :=
  have h := C3_absent_record_unauthorized sampleCfg sampleEnv sampleRequest emptyWorld
    1 7 "tok" "video/mp4" stagedPath "landscape" sampleRequest.body
    (by decide) (by decide) (by decide) (by decide) (by decide) (by decide) (by decide)
    (by decide) (by decide) (by decide) (by decide)
  ⟨h.1, h.2.1⟩

/-- C4: an authenticated request whose `video` part does not parse to the media
type `video/mp4` (unparseable, or another type such as `video/avi`) is answered
with 400 before any temp file is created, without `UpdateVideo`, and leaves
disk, store and bucket untouched. -/
theorem C4_bad_media_type_rejected (cfg : apiConfig) (env : Env) (r : Request) (w : World)
    (token contentType : String) (uid : UUID) (file : List Byte)
    (h2 : env.getBearerToken r.Header = some token)
    (h3 : env.validateJWT token cfg.jwtSecret = some uid)
    (h4 : env.formFile r "video" = some (contentType, file))
    (h5 : env.parseMediaType contentType ≠ some "video/mp4") :
    (∃ msg, (handlerUploadVideo cfg env r w).resp = .error 400 msg) ∧
      (∀ n, Call.CreateTemp n ∉ (handlerUploadVideo cfg env r w).calls) ∧
      (∀ v, Call.UpdateVideo v ∉ (handlerUploadVideo cfg env r w).calls) ∧
      (handlerUploadVideo cfg env r w).world = w := by
  rcases h1 : env.uuidParse r.videoIDString with _ | videoID
  · simp [handlerUploadVideo, h1]
  rcases h6 : env.parseMediaType contentType with _ | mediaType
  · simp [handlerUploadVideo, h1, h2, h3, h4, h6]
  have hm : mediaType ≠ "video/mp4" := by
    intro hm
    exact h5 (by rw [h6, hm])
  simp [handlerUploadVideo, h1, h2, h3, h4, h6, hm]

/-- C4 witness: the part declared as `video/avi`. -/
theorem C4_bad_media_type_rejected_witness :
    (∃ msg, (handlerUploadVideo sampleCfg envAvi sampleRequest sampleWorld).resp
        = .error 400 msg) ∧
      (∀ n, Call.CreateTemp n ∉
        (handlerUploadVideo sampleCfg envAvi sampleRequest sampleWorld).calls) ∧
      (∀ v, Call.UpdateVideo v ∉
        (handlerUploadVideo sampleCfg envAvi sampleRequest sampleWorld).calls) ∧
      (handlerUploadVideo sampleCfg envAvi sampleRequest sampleWorld).world = sampleWorld :=
  C4_bad_media_type_rejected sampleCfg envAvi sampleRequest sampleWorld "tok" "video/avi" 7
    sampleRequest.body (by decide) (by decide) (by decide) (by decide)

/-- C5: on a 200 response the payload is the record passed to `UpdateVideo`; its
ID is the request's video ID, its ThumbnailURL and CreateVideoParams are those
of the record `GetVideo` returned, its VideoURL is `s3CfDistribution` followed
by the key given to `PutObject`, and it equals the fetched record with only
VideoURL replaced. -/
theorem C5_only_video_url_changes (cfg : apiConfig) (env : Env) (r : Request) (w : World)
    (code : Nat) (v : Video)
    (h : (handlerUploadVideo cfg env r w).resp = .json code v) :
    code = 200 ∧
    ∃ videoID fetched newFile pfx,
      env.uuidParse r.videoIDString = some videoID ∧
      GetVideo w.db videoID = some fetched ∧
      env.createTemp = some newFile ∧
      getVideoAspectRatio env newFile = .ok pfx ∧
      Call.UpdateVideo v ∈ (handlerUploadVideo cfg env r w).calls ∧
      Call.PutObject cfg.s3Bucket (imageFile pfx (imageFileNameRaw env)) "video/mp4"
        (newFile ++ ".processing") ∈ (handlerUploadVideo cfg env r w).calls ∧
      v.ID = videoID ∧
      v.ThumbnailURL = fetched.ThumbnailURL ∧
      v.CreateVideoParams = fetched.CreateVideoParams ∧
      v.VideoURL = some (cfg.s3CfDistribution ++ imageFile pfx (imageFileNameRaw env)) ∧
      v = { fetched with
        VideoURL := some (cfg.s3CfDistribution ++ imageFile pfx (imageFileNameRaw env)) } := by
  rcases handlerUploadVideo_cases cfg env r w with ⟨_, hn, _⟩ |
    ⟨videoID, token, uid, contentType, file, newFile, pfx, fetched,
      h1, _, _, _, _, h6, _, h7, h9, hcalls, hresp⟩
  · exact absurd h (hn code v)
  · rcases hresp with ⟨_, hr⟩ | ⟨_, hr⟩
    · rw [hr] at h
      injection h with hcode hv
      subst hv
      have hid : fetched.ID = videoID := by
        have := List.find?_some h9
        simpa using this
      refine ⟨hcode.symm, videoID, fetched, newFile, pfx, h1, h9, h6, h7, ?_, ?_,
        rfl, rfl, rfl, rfl, ?_⟩
      · rw [hcalls]; simp
      · rw [hcalls]; simp
      · cases fetched
        simp only [newVideoOf] at hid ⊢
        simp [hid]
    · rw [hr] at h
      exact absurd h (by simp)

/-- C5 witness: the all-successful run. -/
theorem C5_only_video_url_changes_witness :
    (200 : Nat) = 200 ∧
    ∃ videoID fetched newFile pfx,
      sampleEnv.uuidParse sampleRequest.videoIDString = some videoID ∧
      GetVideo sampleWorld.db videoID = some fetched ∧
      sampleEnv.createTemp = some newFile ∧
      getVideoAspectRatio sampleEnv newFile = .ok pfx ∧
      Call.UpdateVideo (newVideoOf sampleCfg 1 sampleVideo
          (imageFile "landscape" (imageFileNameRaw sampleEnv))) ∈
        (handlerUploadVideo sampleCfg sampleEnv sampleRequest sampleWorld).calls ∧
      Call.PutObject sampleCfg.s3Bucket (imageFile pfx (imageFileNameRaw sampleEnv)) "video/mp4"
        (newFile ++ ".processing") ∈
        (handlerUploadVideo sampleCfg sampleEnv sampleRequest sampleWorld).calls ∧
      (newVideoOf sampleCfg 1 sampleVideo
          (imageFile "landscape" (imageFileNameRaw sampleEnv))).ID = videoID ∧
      (newVideoOf sampleCfg 1 sampleVideo
          (imageFile "landscape" (imageFileNameRaw sampleEnv))).ThumbnailURL
        = fetched.ThumbnailURL ∧
      (newVideoOf sampleCfg 1 sampleVideo
          (imageFile "landscape" (imageFileNameRaw sampleEnv))).CreateVideoParams
        = fetched.CreateVideoParams ∧
      (newVideoOf sampleCfg 1 sampleVideo
          (imageFile "landscape" (imageFileNameRaw sampleEnv))).VideoURL
        = some (sampleCfg.s3CfDistribution ++ imageFile pfx (imageFileNameRaw sampleEnv)) ∧
      newVideoOf sampleCfg 1 sampleVideo (imageFile "landscape" (imageFileNameRaw sampleEnv))
        = { fetched with
          VideoURL :=
            some (sampleCfg.s3CfDistribution ++ imageFile pfx (imageFileNameRaw sampleEnv)) } :=
  C5_only_video_url_changes sampleCfg sampleEnv sampleRequest sampleWorld 200
    (newVideoOf sampleCfg 1 sampleVideo (imageFile "landscape" (imageFileNameRaw sampleEnv)))
    (by decide)

/-- C6: when the probe output parses and its first stream has width `w` and
height `h`, `getVideoAspectRatio` returns landscape if `w/16 = h/9` (truncating
division), else portrait if `w/9 = h/16`, else other; 1920x1080 is landscape,
1080x1920 portrait and 1000x1000 other. -/
theorem C6_classification_rule (env : Env) (p out : String) (v : videoData)
    (w h : Int) (rest : List Stream)
    (hp : env.ffprobe p = some out) (hu : env.unmarshal out = some v)
    (hs : v.Streams = ⟨w, h⟩ :: rest) :
    getVideoAspectRatio env p =
        (if w.tdiv 16 = h.tdiv 9 then .ok "landscape"
         else if w.tdiv 9 = h.tdiv 16 then .ok "portrait"
         else .ok "other") ∧
      (w = 1920 → h = 1080 → getVideoAspectRatio env p = .ok "landscape") ∧
      (w = 1080 → h = 1920 → getVideoAspectRatio env p = .ok "portrait") ∧
      (w = 1000 → h = 1000 → getVideoAspectRatio env p = .ok "other") := by
  have key := getVideoAspectRatio_first env p out v ⟨w, h⟩ rest hp hu hs
  refine ⟨key, ?_, ?_, ?_⟩
  · intro hw hh
    subst hw hh
    rw [key]
    decide
  · intro hw hh
    subst hw hh
    rw [key]
    decide
  · intro hw hh
    subst hw hh
    rw [key]
    decide

/-- C6 witness: a probe reporting 1920x1080. -/
theorem C6_classification_rule_witness :
    getVideoAspectRatio (envGeometry 1920 1080) stagedPath = .ok "landscape" :=
  (C6_classification_rule (envGeometry 1920 1080) stagedPath "1280x720"
    ⟨[⟨1920, 1080⟩]⟩ 1920 1080 [] (by decide) (by decide) rfl).2.1 rfl rfl

/-- C7 (as stated, false): 16x12 is an exact 4:3 geometry (k = 4) and is
classified landscape, not other. -/
theorem C7_four_by_three_landscape :
    (16 : Int) = 4 * 4 ∧ (12 : Int) = 3 * 4 ∧
      getVideoAspectRatio (envGeometry 16 12) stagedPath = .ok "landscape" ∧
      getVideoAspectRatio (envGeometry 16 12) stagedPath ≠ .ok "other" := by
  decide

/-- C7 (amended): the classification is other exactly when `w/16 ≠ h/9` and
`w/9 ≠ h/16` (truncating division); for an exact 4:3 geometry `w = 4k`,
`h = 3k`, `k ≥ 1`, that is exactly when `k` is none of 1, 2, 4, 5, 8. -/
theorem C7_other_iff (env : Env) (p out : String) (v : videoData)
    (w h : Int) (rest : List Stream)
    (hp : env.ffprobe p = some out) (hu : env.unmarshal out = some v)
    (hs : v.Streams = ⟨w, h⟩ :: rest) :
    (getVideoAspectRatio env p = .ok "other" ↔
        (w.tdiv 16 ≠ h.tdiv 9 ∧ w.tdiv 9 ≠ h.tdiv 16)) ∧
      (∀ k : Int, 1 ≤ k → w = 4 * k → h = 3 * k →
        (getVideoAspectRatio env p = .ok "other" ↔
          (k ≠ 1 ∧ k ≠ 2 ∧ k ≠ 4 ∧ k ≠ 5 ∧ k ≠ 8))) := by
  have key := getVideoAspectRatio_first env p out v ⟨w, h⟩ rest hp hu hs
  have hiff : getVideoAspectRatio env p = .ok "other" ↔
      (w.tdiv 16 ≠ h.tdiv 9 ∧ w.tdiv 9 ≠ h.tdiv 16) := by
    rw [key]
    dsimp only
    by_cases h1 : w.tdiv 16 = h.tdiv 9
    · simp [h1]
    · by_cases h2 : w.tdiv 9 = h.tdiv 16
      · simp [h1, h2]
      · simp [h1, h2]
  refine ⟨hiff, ?_⟩
  intro k hk hw hh
  rw [hiff]
  subst hw hh
  rw [Int.tdiv_eq_ediv (by omega) (by omega), Int.tdiv_eq_ediv (by omega) (by omega),
    Int.tdiv_eq_ediv (by omega) (by omega), Int.tdiv_eq_ediv (by omega) (by omega)]
  omega

/-- C7 witness: 640x480 (k = 160) is classified other. -/
theorem C7_other_iff_witness :
    getVideoAspectRatio (envGeometry 640 480) stagedPath = .ok "other" :=
  ((C7_other_iff (envGeometry 640 480) stagedPath "1280x720" ⟨[⟨640, 480⟩]⟩ 640 480 []
    (by decide) (by decide) rfl).2 160 (by decide) (by decide) (by decide)).2 (by decide)

/-- C8 (fails on the code): on a probe output that parses with an empty stream
list, `getVideoAspectRatio` panics on `v.Streams[0]` instead of returning an
error, and the handler sends no response at all (not a 500); the deferred
removal of the staged file still runs. -/
theorem C8_empty_streams_panics :
    envNoStreams.unmarshal "1280x720" = some ⟨[]⟩ ∧
      getVideoAspectRatio envNoStreams stagedPath
        = .panicked "index out of range [0] with length 0" ∧
      (handlerUploadVideo sampleCfg envNoStreams sampleRequest sampleWorld).resp = .aborted ∧
      (handlerUploadVideo sampleCfg envNoStreams sampleRequest sampleWorld).world.fs = [] := by
  decide

/-- C9: the key the handler gives to `PutObject` is `p ++ "/" ++ t ++ ".mp4"`,
where `p` is the prefix `getVideoAspectRatio` returned for the staged file, one
of landscape, portrait, other, and `t` is the unpadded base64-URL encoding of
the 32 random bytes: 43 characters, all from A-Z, a-z, 0-9, `-`, `_`. -/
theorem C9_storage_key_shape (cfg : apiConfig) (env : Env) (r : Request) (w : World)
    (bucket key contentType body : String) (b : List Byte)
    (hcall : Call.PutObject bucket key contentType body ∈ (handlerUploadVideo cfg env r w).calls)
    (hb : env.randRead = b) (hlen : b.length = 32) :
    ∃ newFile p,
      env.createTemp = some newFile ∧
      getVideoAspectRatio env newFile = .ok p ∧
      (p = "landscape" ∨ p = "portrait" ∨ p = "other") ∧
      key = p ++ "/" ++ EncodeToString b ++ ".mp4" ∧
      (EncodeToString b).length = 43 ∧
      ∀ c ∈ (EncodeToString b).toList, isURLSafe c = true := by
  obtain ⟨newFile, p, h6, h7, hk⟩ :=
    handlerUploadVideo_put_key cfg env r w bucket key contentType body hcall
  have hraw : imageFileNameRaw env = b := by
    rw [← hb]
    exact imageFileNameRaw_eq env (by rw [hb]; exact hlen)
  refine ⟨newFile, p, h6, h7, getVideoAspectRatio_class env newFile p h7, ?_,
    EncodeToString_length b hlen, EncodeToString_safe b⟩
  rw [hk, hraw]
  rfl

/-- C9 witness: the all-successful run, whose random bytes are 32 times 255. -/
theorem C9_storage_key_shape_witness :
    ∃ newFile p,
      sampleEnv.createTemp = some newFile ∧
      getVideoAspectRatio sampleEnv newFile = .ok p ∧
      (p = "landscape" ∨ p = "portrait" ∨ p = "other") ∧
      "landscape/__________________________________________8.mp4"
        = p ++ "/" ++ EncodeToString (List.replicate 32 255) ++ ".mp4" ∧
      (EncodeToString (List.replicate 32 255)).length = 43 ∧
      ∀ c ∈ (EncodeToString (List.replicate 32 255)).toList, isURLSafe c = true :=
  C9_storage_key_shape sampleCfg sampleEnv sampleRequest sampleWorld "tubely"
    "landscape/__________________________________________8.mp4" "video/mp4"
    (stagedPath ++ ".processing") (List.replicate 32 255) (by decide) rfl (by decide)

/-- C10: the storage key is an injective function of the random bytes: two runs
of the handler whose 32-byte random values differ give different keys to
`PutObject`; for a fixed prefix distinct values give distinct keys, and keys
built from a list of pairwise distinct values are pairwise distinct. -/
theorem C10_keys_distinct (pfx : String) (bs : List (List Byte)) (hbs : bs.Nodup) :
    (bs.map (imageFile pfx)).Nodup ∧
      (∀ b₁ b₂ : List Byte, b₁ ≠ b₂ → imageFile pfx b₁ ≠ imageFile pfx b₂) ∧
      (∀ (cfg₁ cfg₂ : apiConfig) (env₁ env₂ : Env) (r₁ r₂ : Request) (w₁ w₂ : World)
        (bk₁ k₁ c₁ f₁ bk₂ k₂ c₂ f₂ : String),
        Call.PutObject bk₁ k₁ c₁ f₁ ∈ (handlerUploadVideo cfg₁ env₁ r₁ w₁).calls →
        Call.PutObject bk₂ k₂ c₂ f₂ ∈ (handlerUploadVideo cfg₂ env₂ r₂ w₂).calls →
        env₁.randRead.length = 32 → env₂.randRead.length = 32 →
        env₁.randRead ≠ env₂.randRead → k₁ ≠ k₂) := by
  have hinj : ∀ b₁ b₂ : List Byte, b₁ ≠ b₂ → imageFile pfx b₁ ≠ imageFile pfx b₂ :=
    fun b₁ b₂ hne heq => hne (imageFile_injective pfx b₁ b₂ heq)
  refine ⟨?_, hinj, ?_⟩
  · exact hbs.map (fun b₁ b₂ heq => imageFile_injective pfx b₁ b₂ heq)
  · intro cfg₁ cfg₂ env₁ env₂ r₁ r₂ w₁ w₂ bk₁ k₁ c₁ f₁ bk₂ k₂ c₂ f₂ h₁ h₂ hl₁ hl₂ hne heq
    obtain ⟨n₁, p₁, _, hp₁, hk₁⟩ := handlerUploadVideo_put_key cfg₁ env₁ r₁ w₁ bk₁ k₁ c₁ f₁ h₁
    obtain ⟨n₂, p₂, _, hp₂, hk₂⟩ := handlerUploadVideo_put_key cfg₂ env₂ r₂ w₂ bk₂ k₂ c₂ f₂ h₂
    have hc₁ := getVideoAspectRatio_class env₁ n₁ p₁ hp₁
    have hc₂ := getVideoAspectRatio_class env₂ n₂ p₂ hp₂
    rw [imageFileNameRaw_eq env₁ hl₁] at hk₁
    rw [imageFileNameRaw_eq env₂ hl₂] at hk₂
    rw [hk₁, hk₂] at heq
    have hlen := congrArg String.length heq
    rw [imageFile_length p₁ _ hl₁, imageFile_length p₂ _ hl₂] at hlen
    have hp : p₁ = p₂ := by
      rcases hc₁ with e₁ | e₁ | e₁ <;> rcases hc₂ with e₂ | e₂ | e₂ <;> subst e₁ e₂ <;>
        first
          | rfl
          | exact absurd hlen (by decide)
    subst hp
    exact hne (imageFile_injective p₁ _ _ heq)

/-- C10 witness: two distinct 32-byte values under the landscape prefix. -/
theorem C10_keys_distinct_witness :
    ([List.replicate 32 (0 : Byte), List.replicate 32 255].map (imageFile "landscape")).Nodup :=
  (C10_keys_distinct "landscape" [List.replicate 32 0, List.replicate 32 255]
    (by decide)).1

end Tubely
